import Mathlib

/-!
# Verification of the discobolt HTTP router (WebScaleSoftwareLtd/discobolt)

A shallow embedding of the routing-and-dispatch engine of the discobolt Go
library: the path segment cursor (`consumeUntilSlash`), the matchers
(`Static`/`Int`/`Uint`/`Float`/`String`/`Remainder`), the per-request
execution context with its shared `consumed` flag, content negotiation
(`consumeHandler`), error resolution (`handleError`), method handlers
(`methodHandler`), dispatch (`afterExecute`, `Router.ServeHTTP`), the
handler sorting policy, and trusted-proxy IP resolution (`evalIp`,
`RemoteIP`).

Pure Go functions become Lean functions over `List Nat` (byte strings) and
`List Char` (Go strings); the per-request mutable state (response writer and
the shared consumed flag) becomes an explicit `Base` record threaded through
the functions; user-supplied route-building closures become a syntax of
route actions interpreted by the dispatch functions.  Calls into the Go
standard library and third-party libraries (`encoding/json`, `encoding/xml`,
`strings`, `strconv`, `net`, `sort`, gorilla websocket) are modelled from
those libraries' documented behavior, which is noted at each such
definition.
-/

namespace Discobolt

/-! ## Byte strings and Go strings -/

/-- A Go `[]byte` value, as a list of byte values (each < 256). -/
abbrev GoBytes := List Nat

/-- A Go `string`, as its list of characters.  The paths and header values
appearing in this development are ASCII, where Go's byte indexing and
character indexing agree. -/
abbrev GoStr := List Char

/-- View a Lean string literal as a Go string. -/
def gs (s : String) : GoStr := s.data

/-- The byte `'/'`. -/
def slashB : Nat := 47

/-- Byte view of an ASCII Go string (used where the Go code converts a
string to `[]byte`; for ASCII text the UTF-8 bytes are the character
codes). -/
def gb (s : String) : GoBytes := s.data.map Char.toNat

/-! ## Go standard library string helpers

These model the exact, documented behavior of the `strings` functions the
router calls: `strings.Split` / `strings.SplitN` with a one-character
separator, `strings.TrimSpace`, `strings.ToLower`, `strings.Contains`,
`strings.HasPrefix`. -/

/-- `strings.Split s sep` for a one-character separator.  In Go,
`Split("", sep) = [""]`. -/
def goSplitChar (sep : Char) : GoStr → List GoStr
  | [] => [[]]
  | c :: rest =>
    let r := goSplitChar sep rest
    if c = sep then [] :: r
    else
      match r with
      | [] => [[c]]
      | x :: xs => (c :: x) :: xs

/-- Split a list at the first occurrence of `sep`, dropping the separator;
`none` when `sep` does not occur. -/
def splitFirst {α : Type} [DecidableEq α] (sep : α) : List α → Option (List α × List α)
  | [] => none
  | c :: rest =>
    if c = sep then some ([], rest)
    else
      match splitFirst sep rest with
      | none => none
      | some (a, b) => some (c :: a, b)

/-- `strings.SplitN s sep n` for a one-character separator and `n ≥ 0`.
Per the Go documentation: `n = 0` yields the empty list, and for `n > 0`
the result has at most `n` substrings, the last one being the unsplit
remainder.  In particular `SplitN(s, sep, 1)` is `[s]`: the string is NOT
split at all. -/
def goSplitN (sep : Char) : Nat → GoStr → List GoStr
  | 0, _ => []
  | 1, s => [s]
  | n + 2, s =>
    match splitFirst sep s with
    | none => [s]
    | some (a, rest) => a :: goSplitN sep (n + 1) rest

/-- Whitespace characters trimmed by `strings.TrimSpace` (ASCII subset). -/
def goIsSpace (c : Char) : Bool :=
  c = ' ' || c = '\t' || c = '\n' || c = '\x0d'

/-- `strings.TrimSpace` (ASCII subset, which covers every header value in
this development). -/
def goTrim (s : GoStr) : GoStr :=
  ((s.dropWhile goIsSpace).reverse.dropWhile goIsSpace).reverse

/-- ASCII lower-casing of one character, per `strings.ToLower`. -/
def charLower (c : Char) : Char :=
  if 65 ≤ c.toNat ∧ c.toNat ≤ 90 then Char.ofNat (c.toNat + 32) else c

/-- `strings.ToLower` (ASCII). -/
def goToLower (s : GoStr) : GoStr := s.map charLower

/-- `strings.HasPrefix s pre`. -/
def goHasPrefix : GoStr → GoStr → Bool
  | _, [] => true
  | [], _ :: _ => false
  | c :: s, d :: p => c = d && goHasPrefix s p

/-- `strings.Contains s sub`. -/
def goContains : GoStr → GoStr → Bool
  | [], sub => goHasPrefix [] sub
  | c :: rest, sub => goHasPrefix (c :: rest) sub || goContains rest sub

/-! ## PathCursor: `consumeUntilSlash` (matchers source file)

Go source:
```
func consumeUntilSlash(path []byte) (contents, remainder []byte) {
sliceRunner:
    for i, b := range path {
        if b == '/' {
            if i == 0 {
                path = path[1:]
                goto sliceRunner
            }
            return path[:i], path[i:]
        }
    }
    return path, []byte{}
}
```
After the leading-slash stripping (`i == 0` and `goto`), the loop scans the
remaining bytes for the first slash at a positive index and splits there.
`takeUntilSlash` is that inner scan; `consumeUntilSlash` adds the stripping
of leading slashes. -/

/-- The scan of `consumeUntilSlash` once the head byte is not a slash:
split at the first slash, keeping the slash in the remainder. -/
def takeUntilSlash : GoBytes → GoBytes × GoBytes
  | [] => ([], [])
  | b :: rest =>
    if b = slashB then ([], b :: rest)
    else
      let (s, r) := takeUntilSlash rest
      (b :: s, r)

/-- `consumeUntilSlash` from the matchers source file: strip any number of
leading slashes, then split at the next slash. -/
def consumeUntilSlash : GoBytes → GoBytes × GoBytes
  | [] => ([], [])
  | b :: rest =>
    if b = slashB then consumeUntilSlash rest
    else
      let (s, r) := takeUntilSlash rest
      (b :: s, r)

/-! ## Values and their rendering capabilities

A Go `any` value returned by a handler or used as an error body, abstracted
to the shapes the router inspects: `map[string]string` (the error fallback
body), `string`, the `Redirect` struct, a nil `*Redirect`, nil values of
pointer-like kinds, and everything else summarised by its rendering
capabilities. -/

/-- The `reflect.Kind` branches of `methodHandler`'s nil switch: `Ptr,
Interface, Map, Func, Slice, Chan`.  `interfaceK` stands for a nil result
whose static type is an interface; the switch's `reflect.Interface` branch
is dead code, because `reflect.ValueOf` never returns a Value of Kind
`Interface` (see `isNilValue`). -/
inductive NilKind where
  | ptr
  | interfaceK
  | mapK
  | funcK
  | sliceK
  | chanK
deriving DecidableEq, Repr

/-- Rendering capabilities of an arbitrary Go value: whether each marshaller
succeeds on it, and its optional `String() string` / `HTML() ([]byte, error)`
methods (for the latter, `some (some h)` is a successful render and
`some none` is an erroring `HTML()` call). -/
structure Caps where
  jsonOk : Bool
  xmlOk : Bool
  msgpackOk : Bool
  yamlOk : Bool
  stringer : Option GoStr
  htmler : Option (Option GoStr)
deriving DecidableEq, Repr

/-- A handler-result / error-body value. -/
inductive Value where
  | vmap (entries : List (GoStr × GoStr))
  | vstr (s : GoStr)
  | vredirect (url : GoStr) (permanent : Bool)
  | vredirectNilPtr
  | vnil (k : NilKind)
  | vcustom (caps : Caps)
deriving DecidableEq, Repr

/-- `json.Marshal` success.  Per the `encoding/json` documentation it
handles maps with string keys, strings and plain structs, and fails on
channel and func values. -/
def jsonRender : Value → Bool
  | .vmap _ => true
  | .vstr _ => true
  | .vredirect _ _ => true
  | .vredirectNilPtr => true
  | .vnil .funcK => false
  | .vnil .chanK => false
  | .vnil _ => true
  | .vcustom c => c.jsonOk

/-- `xml.Marshal` success.  Per the `encoding/xml` documentation maps are
an unsupported type (`xml: unsupported type: map[...]...`), so the router's
`map[string]string` fallback body cannot be XML-rendered; top-level strings
and exported-field structs marshal fine. -/
def xmlRender : Value → Bool
  | .vmap _ => false
  | .vstr _ => true
  | .vredirect _ _ => true
  | .vredirectNilPtr => true
  | .vnil .funcK => false
  | .vnil .chanK => false
  | .vnil _ => true
  | .vcustom c => c.xmlOk

/-- `msgpack` encoder success (vmihailenco/msgpack with JSON tags). -/
def msgpackRender : Value → Bool
  | .vcustom c => c.msgpackOk
  | .vnil .funcK => false
  | .vnil .chanK => false
  | _ => true

/-- `yaml.Marshal` success (gopkg.in/yaml.v3). -/
def yamlRender : Value → Bool
  | .vcustom c => c.yamlOk
  | .vnil .funcK => false
  | .vnil .chanK => false
  | _ => true

/-- The `String() string` capability probed by the `text/plain` case.  A
plain `string` body is first wrapped in `wrapsString`, which always has
`String()`, so it always passes the probe. -/
def stringerOf : Value → Option GoStr
  | .vstr s => some s
  | .vcustom c => c.stringer
  | _ => none

/-- The `HTML() ([]byte, error)` capability probed by the `text/html`
case. -/
def htmlerOf : Value → Option (Option GoStr)
  | .vcustom c => c.htmler
  | _ => none

/-! ## Errors

Go error values reaching `handleError`, abstracted to what the resolver
inspects: the `Unwrap` chain, the `UserFacingError` capability (`Status`
and `Body`), the `BadRequest` wrapper, the `RouteNotFound` sentinel, and
`Redirect` thrown as an error (which implements `UserFacingError` with
status 0 and itself as body). -/

inductive ErrVal where
  | routeNotFound
  | badRequest (inner : ErrVal)
  | userFacing (status : Nat) (body : Value)
  | redirectE (url : GoStr) (permanent : Bool)
  | wrapped (inner : ErrVal)
  | plain (tag : GoStr)
deriving DecidableEq, Repr

/-- The hunt loop of `handleError`: walk the `Unwrap` chain looking for the
first error implementing `UserFacingError`, returning its `Status()` and
`Body()`.  `BadRequest` only implements `Unwrap`; `RouteNotFound` is a
plain sentinel; `Redirect` implements `UserFacingError` with status 0 and
itself as the body. -/
def findUserFacing : ErrVal → Option (Nat × Value)
  | .userFacing s b => some (s, b)
  | .redirectE u p => some (0, .vredirect u p)
  | .badRequest i => findUserFacing i
  | .wrapped i => findUserFacing i
  | .routeNotFound => none
  | .plain _ => none

/-- `errors.Is(err, RouteNotFound)`: the unwrap chain reaches the
sentinel. -/
def errorsIsRouteNotFound : ErrVal → Bool
  | .routeNotFound => true
  | .badRequest i => errorsIsRouteNotFound i
  | .wrapped i => errorsIsRouteNotFound i
  | _ => false

/-- `IsBadRequest` from the context source file: walk the unwrap chain
looking for a `BadRequest` value. -/
def isBadRequestE : ErrVal → Bool
  | .badRequest _ => true
  | .wrapped i => isBadRequestE i
  | _ => false

/-! ## The response writer and request

The `http.ResponseWriter` becomes a log of write events; the shared
`consumed` flag of `contextBase` lives beside it.  `fuelOut` is an artifact
of the fuel-indexed dispatch interpreter below (it never becomes true on
runs given enough fuel) and has no Go counterpart. -/

/-- One observable write on the shared response writer. -/
inductive WEv where
  | head (status : Nat)
  | body (contentType : GoStr)
  | redirect (url : GoStr) (code : Nat)
  | upgrade
  | upgradeFail
deriving DecidableEq, Repr

/-- The per-request shared mutable cell: `contextBase.consumed` plus the
response-writer log. -/
structure Base where
  consumed : Bool
  writes : List WEv
  fuelOut : Bool
deriving DecidableEq, Repr

/-- Fresh per-request state, as built at the top of `Router.ServeHTTP`. -/
def base0 : Base := { consumed := false, writes := [], fuelOut := false }

/-- The request fields the engine reads.  An absent header is the empty
string, exactly as `http.Header.Get` reports it. -/
structure Req where
  method : GoStr
  path : GoBytes
  acceptH : GoStr
  contentTypeH : GoStr
  connectionH : GoStr
  upgradeH : GoStr
deriving DecidableEq, Repr

/-- Router configuration relevant to the claims: the installable error
handler.  A Go `ErrorHandler` is `(Context, error) -> (any, int)`; the
context argument carries no information our error values depend on, so the
model takes the error alone. -/
structure Cfg where
  errHandler : Option (ErrVal → Value × Nat)

/-- A router with no error handler installed. -/
def cfg0 : Cfg := { errHandler := none }

/-- The accept-header computation at the top of `consumeHandler`: `Accept`,
falling back to `Content-Type`, falling back to `"application/json"`. -/
def effAccept (req : Req) : GoStr :=
  if req.acceptH ≠ [] then req.acceptH
  else if req.contentTypeH ≠ [] then req.contentTypeH
  else gs "application/json"

/-! ## Content negotiation: `consumeHandler` -/

/-- The `jsonSend` closure of `consumeHandler`: marshal the body as JSON;
on success set `Content-Length`/`Content-Type`, write the header and the
bytes (one `head` event and one `body` event); on failure return the
marshal error having written nothing. -/
def jsonSend (b : Base) (status : Nat) (body : Value) : Base × Option ErrVal :=
  if jsonRender body then
    ({ b with writes := b.writes ++ [.head status, .body (gs "application/json")] }, none)
  else
    (b, some (.plain (gs "json: unsupported type")))

/-- The accept-candidate loop of `consumeHandler`.  Each part is trimmed
and then cut with `strings.SplitN(part, ";", 1)` — which, per the `SplitN`
contract, does not split at all, so a candidate carrying parameters such as
`application/json;q=0.9` matches no codec case and falls to the next
candidate.  The `text/plain` and `text/html` cases fall through to the next
candidate when the capability is missing, but every marshalling failure
(json, xml, msgpack, yaml, an erroring `HTML()`) returns the error
immediately.  After the loop, `jsonSend` is the unconditional fallback. -/
def negotiate (b : Base) (status : Nat) (body : Value) : List GoStr → Base × Option ErrVal
  | [] => jsonSend b status body
  | part :: rest =>
    let acceptPart := goTrim part
    let acceptPartParts := goSplitN ';' 1 acceptPart
    let ct := acceptPartParts.headD []
    if ct = gs "application/json" ∨ ct = gs "application/*" ∨ ct = gs "*/*" then
      jsonSend b status body
    else if ct = gs "application/xml" ∨ ct = gs "text/xml" then
      if xmlRender body then
        ({ b with writes := b.writes ++ [.head status, .body ct] }, none)
      else (b, some (.plain (gs "xml: unsupported type")))
    else if ct = gs "application/x-msgpack" ∨ ct = gs "application/msgpack" then
      if msgpackRender body then
        ({ b with writes := b.writes ++ [.head status, .body ct] }, none)
      else (b, some (.plain (gs "msgpack: encode error")))
    else if ct = gs "text/plain" ∨ ct = gs "text/*" then
      match stringerOf body with
      | some _ => ({ b with writes := b.writes ++ [.head status, .body (gs "text/plain")] }, none)
      | none => negotiate b status body rest
    else if ct = gs "text/html" ∨ ct = gs "application/html" then
      match htmlerOf body with
      | some (some _) => ({ b with writes := b.writes ++ [.head status, .body ct] }, none)
      | some none => (b, some (.plain (gs "html: render error")))
      | none => negotiate b status body rest
    else if ct = gs "application/yaml" ∨ ct = gs "text/yaml" then
      if yamlRender body then
        ({ b with writes := b.writes ++ [.head status, .body ct] }, none)
      else (b, some (.plain (gs "yaml: marshal error")))
    else
      negotiate b status body rest

/-- `consumeHandler` before the deferred consumed-update: the no-op path
for an already consumed context, the 204 short-circuit, the redirect
short-circuits, and the negotiation loop. -/
def consumeHandlerCore (req : Req) (b : Base) (status : Nat) (body : Value) :
    Base × Option ErrVal :=
  if b.consumed then (b, none)
  else if status = 204 then
    ({ b with consumed := true, writes := b.writes ++ [.head 204] }, none)
  else if body = Value.vredirectNilPtr then
    (b, some (.plain (gs "nil pointer to special redirect struct")))
  else
    match body with
    | .vredirect url perm =>
      let code := if perm then 308 else 307
      ({ b with consumed := true, writes := b.writes ++ [.redirect url code] }, none)
    | _ =>
      negotiate b status body (goSplitChar ',' (effAccept req))

/-- `Context.consumeHandler`: the core plus the deferred
`if err == nil { c.consumed = true }`. -/
def consumeHandler (req : Req) (b : Base) (status : Nat) (body : Value) :
    Base × Option ErrVal :=
  let r := consumeHandlerCore req b status body
  (if r.2 = none then { r.1 with consumed := true } else r.1, r.2)

/-! ## Error resolution: `handleError` -/

/-- The message/status classification at the bottom of `handleError`:
`errors.Is(err, RouteNotFound)` first, then `IsBadRequest`, else an
internal error. -/
def classifyFallback (err : ErrVal) : GoStr × Nat :=
  if errorsIsRouteNotFound err then (gs "Not Found", 404)
  else if isBadRequestE err then (gs "Bad Request", 400)
  else (gs "Internal Server Error", 500)

/-- The terminal stage of `handleError`: render the fixed
`map[string]string{"message": ...}` body through `consumeHandler`,
discarding any error it returns. -/
def handleErrorStep3 (req : Req) (b : Base) (err : ErrVal) : Base :=
  let ms := classifyFallback err
  (consumeHandler req b ms.2 (.vmap [(gs "message", ms.1)])).1

/-- The configurable-handler stage of `handleError`.  Note it is invoked
with whatever error value the previous stage left in `err` — when a
user-facing render failed, that is the render error, not the original
request error. -/
def handleErrorStep2 (req : Req) (cfg : Cfg) (b : Base) (err : ErrVal) : Base :=
  match cfg.errHandler with
  | some f =>
    let rs := f err
    let r := consumeHandler req b rs.2 rs.1
    match r.2 with
    | none => r.1
    | some err2 => handleErrorStep3 req r.1 err2
  | none => handleErrorStep3 req b err

/-- `Context.handleError`: hunt for a `UserFacingError` and render it; on
render failure reassign `err` to the render error and try the configurable
handler; on failure again, emit the fixed fallback. -/
def handleError (req : Req) (cfg : Cfg) (b : Base) (err : ErrVal) : Base :=
  match findUserFacing err with
  | some sb =>
    let r := consumeHandler req b sb.1 sb.2
    match r.2 with
    | none => r.1
    | some err1 => handleErrorStep2 req cfg r.1 err1
  | none => handleErrorStep2 req cfg b err

/-! ## Segment parsers used by the matchers

Acceptance predicates for `strconv.Atoi`, `strconv.ParseUint`,
`strconv.ParseFloat` and `url.PathUnescape`, modelled from those functions'
documented syntax.  Range overflow is not modelled (no claim depends on
it), and `ParseFloat` is restricted to plain decimal forms. -/

/-- ASCII digit byte. -/
def isDigitB (b : Nat) : Bool := 48 ≤ b && b ≤ 57

/-- All bytes are digits. -/
def allDigits (l : GoBytes) : Bool := l.all isDigitB

/-- `strconv.Atoi` accepts the byte string: an optional `+`/`-` sign
followed by one or more digits. -/
def goAtoiOk (l : GoBytes) : Bool :=
  match l with
  | [] => false
  | b :: rest =>
    if b = 43 || b = 45 then !rest.isEmpty && allDigits rest
    else allDigits l

/-- `strconv.ParseUint` (base 10) accepts the byte string: one or more
digits, no sign. -/
def goParseUintOk (l : GoBytes) : Bool := !l.isEmpty && allDigits l

/-- `strconv.ParseFloat` accepts the byte string (plain decimal forms:
optional sign, digits, optional single dot). -/
def goParseFloatOk (l : GoBytes) : Bool :=
  let core :=
    match l with
    | b :: rest => if b = 43 || b = 45 then rest else l
    | [] => l
  match splitFirst 46 core with
  | none => !core.isEmpty && allDigits core
  | some dp =>
    allDigits dp.1 && allDigits dp.2 && !(dp.1.isEmpty && dp.2.isEmpty) &&
      !(dp.2.contains 46)

/-- ASCII hex digit byte. -/
def isHexB (b : Nat) : Bool := isDigitB b || (65 ≤ b && b ≤ 70) || (97 ≤ b && b ≤ 102)

/-- `url.PathUnescape` succeeds: every `%` is followed by two hex
digits. -/
def pathUnescapeOk : GoBytes → Bool
  | [] => true
  | 37 :: a :: b :: rest => isHexB a && isHexB b && pathUnescapeOk rest
  | 37 :: _ => false
  | _ :: rest => pathUnescapeOk rest

/-! ## Matchers

The six matcher constructors of the matchers source file.  Each `check`
consumes a path segment via `consumeUntilSlash` (or, for `Remainder`, the
whole path) and reports whether it matched together with the unconsumed
remainder; on failure the original path is returned untouched.  The
extracted values (the parsed int/uint/float/string) are not modelled: the
route bodies in this development do not depend on them. -/

inductive MKind where
  | static (text : GoBytes)
  | intM
  | uintM
  | floatM
  | stringM
  | remainder
deriving DecidableEq, Repr

/-- The `priority` field each matcher constructor assigns to its handler:
2 for `Static` and `Remainder`, 1 for `Int`, `Uint`, `Float` and
`String`. -/
def prioOf : MKind → Nat
  | .static _ => 2
  | .remainder => 2
  | .intM => 1
  | .uintM => 1
  | .floatM => 1
  | .stringM => 1

/-- The `check` function of each matcher. -/
def mcheck : MKind → GoBytes → Bool × GoBytes
  | .static t, path =>
    let cr := consumeUntilSlash path
    if cr.1 = t then (true, cr.2) else (false, path)
  | .intM, path =>
    let cr := consumeUntilSlash path
    if goAtoiOk cr.1 then (true, cr.2) else (false, path)
  | .uintM, path =>
    let cr := consumeUntilSlash path
    if goParseUintOk cr.1 then (true, cr.2) else (false, path)
  | .floatM, path =>
    let cr := consumeUntilSlash path
    if goParseFloatOk cr.1 then (true, cr.2) else (false, path)
  | .stringM, path =>
    let cr := consumeUntilSlash path
    if !cr.1.isEmpty && pathUnescapeOk cr.1 then (true, cr.2) else (false, path)
  | .remainder, path =>
    if path.length > 1 then (true, []) else (false, path)

/-! ## Route programs

A user-supplied route-building closure `func(*Context)` becomes a list of
route actions: registering a nested matcher, attaching a (deferred) GET
runner, calling a non-GET method handler inline, attaching a WebSocket
handler, adding a check, or panicking.  Handler functions become their
outcome: a returned `(value, error)` pair or a panic. -/

/-- Outcome of a `func() (T, error)` method handler. -/
inductive HOutcome where
  | ret (v : Value) (e : Option ErrVal)
  | panicO (p : ErrVal)

/-- Outcome of one registered `Check`. -/
inductive COutcome where
  | okC
  | errC (e : ErrVal)
  | panicC (p : ErrVal)

/-- Outcome of a WebSocket connection handler. -/
inductive WsOutcome where
  | okW
  | errW (e : ErrVal)
  | panicW (p : ErrVal)

/-- One statement of a route-building closure. -/
inductive RAct where
  | matcher (kind : MKind) (body : List RAct)
  | getA (h : HOutcome)
  | methodA (m : GoStr) (h : HOutcome)
  | websocketA (handshakeOk : Bool) (h : WsOutcome)
  | addCheckA (c : COutcome)
  | panicA (p : ErrVal)

/-- A registered handler: its matcher kind (which fixes its `priority`
via `prioOf`) and the body of its route-building closure. -/
abbrev HSyn := MKind × List RAct

/-! ## Handler-list sorting

`Router.addHandler` and `Context.addHandler` append and then call
`sort.Sort(routesSorter{...})`, whose `Less(i, j)` is
`priority(i) > priority(j)`.  `sortSortPost` is the documented contract of
`sort.Sort`: the result is a sorted permutation of the input, with NO
stability guarantee (Go documents `sort.Sort` as not stable; `sort.Stable`
is a different function).  `sortHandlers` is the executable stand-in used
by the dispatch interpreter; it is the insertion sort `sort.Sort` runs on
short slices, which does satisfy the contract. -/

/-- Sorted by `priority` descending (the order `routesSorter.Less`
induces). -/
def handlersSortedDesc (l : List HSyn) : Prop :=
  l.Pairwise (fun a b => prioOf b.1 ≤ prioOf a.1)

/-- The documented postcondition of `sort.Sort(routesSorter{a: l})` with
result `l'`: a permutation of the input, sorted by priority descending.
Stability is deliberately absent: `sort.Sort` does not guarantee it. -/
def sortSortPost (l l' : List HSyn) : Prop :=
  l'.Perm l ∧ handlersSortedDesc l'

/-- Insert a handler behind every element of priority ≥ its own (the
movement performed by the library's insertion sort under the strict
`Less`). -/
def insertHandler (h : HSyn) : List HSyn → List HSyn
  | [] => [h]
  | x :: xs => if prioOf h.1 > prioOf x.1 then h :: x :: xs else x :: insertHandler h xs

/-- Executable sorting of a handler list (the insertion-sort path of
`sort.Sort`). -/
def sortHandlers (l : List HSyn) : List HSyn :=
  l.foldl (fun acc h => insertHandler h acc) []

/-- `Router.addHandler`: append then sort (no consumed check on the
router). -/
def routerAddHandler (l : List HSyn) (h : HSyn) : List HSyn :=
  sortHandlers (l ++ [h])

/-! ## The execution context and dispatch -/

/-- Control flow out of a piece of user code: normal return or an
unwinding panic carrying its (coerced) error value.  The recover block in
`afterExecute` turns a non-error panic value into an error via
`fmt.Errorf("%v", ...)`; panic payloads are therefore modelled as `ErrVal`
directly. -/
inductive Flow where
  | normal
  | panicked (p : ErrVal)

/-- A `*Context`: the shared base (threaded explicitly, since each request
chain shares one `contextBase`), the remaining path, and the per-context
registration state. -/
structure Ctx where
  base : Base
  pathRem : GoBytes
  handlers : List HSyn
  checks : List COutcome
  getRunner : Option HOutcome
  ws : Option (Bool × WsOutcome)

/-- `Context.addHandler`: a silent no-op once the shared consumed flag is
set; otherwise append and sort. -/
def addHandlerCtx (c : Ctx) (h : HSyn) : Ctx :=
  if c.base.consumed then c
  else { c with handlers := sortHandlers (c.handlers ++ [h]) }

/-- Result of `runChecks`: all passed, a check errored (and `handleError`
already ran), or a check panicked. -/
inductive RCRes where
  | okR
  | erroredR
  | panickedR (p : ErrVal)

/-- `Context.runChecks`: run each check in registration order; the first
failure is routed to `handleError` and aborts. -/
def runChecksA (req : Req) (cfg : Cfg) (b : Base) : List COutcome → Base × RCRes
  | [] => (b, .okR)
  | ck :: rest =>
    match ck with
    | .okC => runChecksA req cfg b rest
    | .errC e => (handleError req cfg b e, .erroredR)
    | .panicC p => (b, .panickedR p)

/-- The nil test `methodHandler` performs via `reflect`, per the `reflect`
documentation: `reflect.ValueOf(result)` unwraps the `any` it is handed,
so a nil pointer/map/func/slice/chan result reports its own kind with
`IsNil` true and takes the 204 branch, while a nil interface result yields
the zero `reflect.Value` of Kind `Invalid` — the switch's
`reflect.Interface` case is unreachable — and the status stays 200.  A nil
`*Redirect` is a nil pointer. -/
def isNilValue : Value → Bool
  | .vnil .interfaceK => false
  | .vnil _ => true
  | .vredirectNilPtr => true
  | _ => false

/-- `methodHandler`: preliminary consumed/method checks, `runChecks`, the
remaining-path guard, then the handler call, nil-to-204 status selection
and `consumeHandler`, with errors routed to `handleError`.  The
input-decoding section is not modelled (the route bodies in this
development pass no decode targets).  `methodHandler` installs no recover,
so a panicking handler unwinds out of it. -/
def methodH (req : Req) (cfg : Cfg) (c : Ctx) (method : GoStr) (h : HOutcome) : Ctx × Flow :=
  if c.base.consumed ∨ req.method ≠ method then (c, .normal)
  else
    match runChecksA req cfg c.base c.checks with
    | (b, .panickedR p) => ({ c with base := b }, .panicked p)
    | (b, .erroredR) => ({ c with base := b }, .normal)
    | (b, .okR) =>
      if c.pathRem.length > 0 then ({ c with base := b }, .normal)
      else
        match h with
        | .panicO p => ({ c with base := b }, .panicked p)
        | .ret v e =>
          match e with
          | some err => ({ c with base := handleError req cfg b err }, .normal)
          | none =>
            let status := if isNilValue v then 204 else 200
            let r := consumeHandler req b status v
            match r.2 with
            | some err2 => ({ c with base := handleError req cfg r.1 err2 }, .normal)
            | none => ({ c with base := r.1 }, .normal)

/-- Run a route-building closure on a context: interpret each action in
order; a panic aborts the rest and unwinds. -/
def runActs (req : Req) (cfg : Cfg) : Ctx → List RAct → Ctx × Flow
  | c, [] => (c, .normal)
  | c, a :: rest =>
    let step : Ctx × Flow :=
      match a with
      | .matcher k body => (addHandlerCtx c (k, body), .normal)
      | .getA h => ({ c with getRunner := some h }, .normal)
      | .methodA m h => methodH req cfg c m h
      | .websocketA hs w => ({ c with ws := some (hs, w) }, .normal)
      | .addCheckA ck => ({ c with checks := c.checks ++ [ck] }, .normal)
      | .panicA p => (c, .panicked p)
    match step.2 with
    | .panicked p => (step.1, .panicked p)
    | .normal => runActs req cfg step.1 rest

/-- The `Connection: upgrade` / `Upgrade: websocket` test of
`afterExecute` (case-insensitive, substring match on `Connection`). -/
def wsUpgradeRequested (req : Req) : Bool :=
  goContains (goToLower req.connectionH) (gs "upgrade") &&
    goToLower req.upgradeH = gs "websocket"

/-- The GET/WebSocket section at the top of `afterExecute`.  Returns the
updated context, the control flow, and whether the section returned early
(the upgrade branch does; the plain GET-runner branches fall through to the
checks and the handler loop).  A successful `Upgrader.Upgrade` hijacks the
connection (one `upgrade` event) and sets `consumed`; a failed handshake
has gorilla write an HTTP error response (one `upgradeFail` event) and also
sets `consumed` — both per gorilla/websocket's documented behavior. -/
def afterExecGetPhase (req : Req) (cfg : Cfg) (c : Ctx) : Ctx × Flow × Bool :=
  if req.method = gs "GET" then
    match c.ws with
    | none =>
      match c.getRunner with
      | some h =>
        let r := methodH req cfg c (gs "GET") h
        (r.1, r.2, false)
      | none => (c, .normal, false)
    | some hw =>
      if c.pathRem.isEmpty then
        if wsUpgradeRequested req then
          if hw.1 then
            let b1 : Base :=
              { c.base with consumed := true, writes := c.base.writes ++ [.upgrade] }
            match hw.2 with
            | .okW => ({ c with base := b1 }, .normal, true)
            | .errW e => ({ c with base := handleError req cfg b1 e }, .normal, true)
            | .panicW p => ({ c with base := b1 }, .panicked p, true)
          else
            let b1 : Base :=
              { c.base with consumed := true, writes := c.base.writes ++ [.upgradeFail] }
            ({ c with base := b1 }, .normal, true)
        else
          match c.getRunner with
          | some h =>
            let r := methodH req cfg c (gs "GET") h
            (r.1, r.2, false)
          | none => (c, .normal, false)
      else (c, .normal, false)
  else (c, .normal, false)

/-- The matcher-dispatch loop at the bottom of `afterExecute`,
parameterised by the recursive dispatch on child contexts.  Each matching
handler gets a fresh child context sharing the base; its route body runs
(`hn(ctx)`) and then the child is dispatched (`ctx.afterExecute()`); a
panic from the body unwinds to the caller (whose recover catches it); the
loop stops as soon as the shared consumed flag is set. -/
def handlerLoopF (exec : Ctx → Base) (req : Req) (cfg : Cfg) (b : Base) (pathRem : GoBytes) :
    List HSyn → Base × Flow
  | [] => (b, .normal)
  | h :: rest =>
    let ok := mcheck h.1 pathRem
    if ok.1 then
      let child : Ctx :=
        { base := b, pathRem := ok.2, handlers := [], checks := [],
          getRunner := none, ws := none }
      let r := runActs req cfg child h.2
      match r.2 with
      | .panicked p => (r.1.base, .panicked p)
      | .normal =>
        let b2 := exec r.1
        if b2.consumed then (b2, .normal)
        else handlerLoopF exec req cfg b2 pathRem rest
    else handlerLoopF exec req cfg b pathRem rest

/-- `Context.afterExecute`, fuel-indexed (the fuel only bounds the depth
of the interpreter and is not part of the Go code; exhaustion marks the
base with `fuelOut`).  If already consumed, a no-op.  Otherwise everything
below runs under the deferred recover, which coerces a panic to an error
and routes it to `handleError`: the GET/WebSocket phase, `runChecks`, and
the matcher-dispatch loop. -/
def afterExec (req : Req) (cfg : Cfg) : Nat → Ctx → Base
  | 0, c => { c.base with fuelOut := true }
  | fuel + 1, c =>
    if c.base.consumed then c.base
    else
      let g := afterExecGetPhase req cfg c
      match g.2.1 with
      | .panicked p => handleError req cfg g.1.base p
      | .normal =>
        if g.2.2 then g.1.base
        else
          match runChecksA req cfg g.1.base g.1.checks with
          | (b, .erroredR) => b
          | (b, .panickedR p) => handleError req cfg b p
          | (b, .okR) =>
            let l := handlerLoopF (afterExec req cfg fuel) req cfg b g.1.pathRem g.1.handlers
            match l.2 with
            | .panicked p => handleError req cfg l.1 p
            | .normal => l.1

/-- The handler loop of `Router.ServeHTTP`.  One context is created before
the loop and reused across iterations; each root handler's `check` runs
against the FULL request path; a matching handler has its route body run
and the context dispatched; ServeHTTP installs no recover, so a panic in a
root-level route body escapes `ServeHTTP` entirely.  When no handler
consumes, the path is restored and `handleError(RouteNotFound)` runs. -/
def serveRoot (req : Req) (cfg : Cfg) (fuel : Nat) : Ctx → List HSyn → Ctx × Flow
  | ctx, [] =>
    let ctx2 := { ctx with pathRem := req.path }
    ({ ctx2 with base := handleError req cfg ctx2.base .routeNotFound }, .normal)
  | ctx, h :: rest =>
    let ok := mcheck h.1 req.path
    if ok.1 then
      let c1 := { ctx with pathRem := ok.2 }
      let r := runActs req cfg c1 h.2
      match r.2 with
      | .panicked p => (r.1, .panicked p)
      | .normal =>
        let b2 := afterExec req cfg fuel r.1
        let c3 := { r.1 with base := b2 }
        if b2.consumed then (c3, .normal)
        else serveRoot req cfg fuel c3 rest
    else serveRoot req cfg fuel ctx rest

/-- The context `Router.ServeHTTP` builds before its handler loop. -/
def initCtx (req : Req) : Ctx :=
  { base := base0, pathRem := req.path, handlers := [], checks := [],
    getRunner := none, ws := none }

/-- `Router.ServeHTTP` over a router whose handler list is
`routerHandlers`. -/
def serveHTTP (cfg : Cfg) (fuel : Nat) (routerHandlers : List HSyn) (req : Req) :
    Ctx × Flow :=
  serveRoot req cfg fuel (initCtx req) routerHandlers

/-! ## ProxyResolver: `evalIp` and `Context.RemoteIP`

IPv4 addresses are 32-bit values as `Nat`.  `parseIPv4` models
`net.ParseIP` restricted to dotted-decimal IPv4 (every address the claims
exercise); per the `net` documentation each field is 0–255 with no leading
zeros.  The IPv4 half of the embedded `known_proxies.txt` table is
transcribed below; the IPv6 half is omitted (the claims are about IPv4
transport addresses, and `evalIp` scans only the list matching the
address family). -/

/-- Parse one dotted-decimal field per `net.ParseIP`: 1–3 digits, value ≤
255, no leading zero. -/
def parseByteField (s : GoStr) : Option Nat :=
  if s = [] then none
  else if !s.all (fun c => 48 ≤ c.toNat && c.toNat ≤ 57) then none
  else if s.length > 1 && s.headD '0' = '0' then none
  else
    let v := s.foldl (fun acc c => acc * 10 + (c.toNat - 48)) 0
    if v ≤ 255 then some v else none

/-- An IPv4 address from its four octets. -/
def mkIPv4 (a b c d : Nat) : Nat := ((a * 256 + b) * 256 + c) * 256 + d

/-- `net.ParseIP` on a dotted-decimal IPv4 string; `none` is Go's nil
result for anything else. -/
def parseIPv4 (s : GoStr) : Option Nat :=
  match goSplitChar '.' s with
  | [a, b, c, d] =>
    match parseByteField a, parseByteField b, parseByteField c, parseByteField d with
    | some x, some y, some z, some w => some (mkIPv4 x y z w)
    | _, _, _, _ => none
  | _ => none

/-- `(*net.IPNet).Contains` for an IPv4 CIDR: the top `maskBits` bits
agree. -/
def cidrContains (base : Nat) (maskBits : Nat) (ip : Nat) : Bool :=
  ip / 2 ^ (32 - maskBits) = base / 2 ^ (32 - maskBits)

/-- The IPv4 rows of the embedded `known_proxies.txt`: Cloudflare ranges
mapping to `CF-Connecting-IP` and Fastly ranges mapping to
`Fastly-Client-IP`, in file order (the order `init` appends them). -/
def v4Items : List (Nat × Nat × GoStr) :=
  [ (mkIPv4 173 245 48 0, 20, gs "CF-Connecting-IP"),
    (mkIPv4 103 21 244 0, 22, gs "CF-Connecting-IP"),
    (mkIPv4 103 22 200 0, 22, gs "CF-Connecting-IP"),
    (mkIPv4 103 31 4 0, 22, gs "CF-Connecting-IP"),
    (mkIPv4 141 101 64 0, 18, gs "CF-Connecting-IP"),
    (mkIPv4 108 162 192 0, 18, gs "CF-Connecting-IP"),
    (mkIPv4 190 93 240 0, 20, gs "CF-Connecting-IP"),
    (mkIPv4 188 114 96 0, 20, gs "CF-Connecting-IP"),
    (mkIPv4 197 234 240 0, 22, gs "CF-Connecting-IP"),
    (mkIPv4 198 41 128 0, 17, gs "CF-Connecting-IP"),
    (mkIPv4 162 158 0 0, 15, gs "CF-Connecting-IP"),
    (mkIPv4 104 16 0 0, 13, gs "CF-Connecting-IP"),
    (mkIPv4 104 24 0 0, 14, gs "CF-Connecting-IP"),
    (mkIPv4 172 64 0 0, 13, gs "CF-Connecting-IP"),
    (mkIPv4 131 0 72 0, 22, gs "CF-Connecting-IP"),
    (mkIPv4 23 235 32 0, 20, gs "Fastly-Client-IP"),
    (mkIPv4 43 249 72 0, 22, gs "Fastly-Client-IP"),
    (mkIPv4 103 244 50 0, 24, gs "Fastly-Client-IP"),
    (mkIPv4 103 245 222 0, 23, gs "Fastly-Client-IP"),
    (mkIPv4 103 245 224 0, 24, gs "Fastly-Client-IP"),
    (mkIPv4 104 156 80 0, 20, gs "Fastly-Client-IP"),
    (mkIPv4 140 248 64 0, 18, gs "Fastly-Client-IP"),
    (mkIPv4 140 248 128 0, 17, gs "Fastly-Client-IP"),
    (mkIPv4 146 75 0 0, 17, gs "Fastly-Client-IP"),
    (mkIPv4 151 101 0 0, 16, gs "Fastly-Client-IP"),
    (mkIPv4 157 52 64 0, 18, gs "Fastly-Client-IP"),
    (mkIPv4 167 82 0 0, 17, gs "Fastly-Client-IP"),
    (mkIPv4 167 82 128 0, 20, gs "Fastly-Client-IP"),
    (mkIPv4 167 82 160 0, 20, gs "Fastly-Client-IP"),
    (mkIPv4 167 82 224 0, 20, gs "Fastly-Client-IP"),
    (mkIPv4 172 111 64 0, 18, gs "Fastly-Client-IP"),
    (mkIPv4 185 31 16 0, 22, gs "Fastly-Client-IP"),
    (mkIPv4 199 27 72 0, 21, gs "Fastly-Client-IP"),
    (mkIPv4 199 232 0 0, 16, gs "Fastly-Client-IP") ]

/-- `evalIp` on an IPv4 address: linear scan of the IPv4 list, first match
wins, empty string when nothing matches. -/
def evalIp (ip : Nat) : GoStr :=
  match v4Items.find? (fun item => cidrContains item.1 item.2.1 ip) with
  | some item => item.2.2
  | none => []

/-- Split a list at the last occurrence of `sep`. -/
def splitLast {α : Type} [DecidableEq α] (sep : α) (s : List α) :
    Option (List α × List α) :=
  match splitFirst sep s.reverse with
  | none => none
  | some ab => some (ab.2.reverse, ab.1.reverse)

/-- The host half of `net.SplitHostPort` for bracketless `host:port`
strings (every transport address the claims exercise): split at the last
colon; `none` models the error when there is none. -/
def splitHostPort (s : GoStr) : Option GoStr :=
  match splitLast ':' s with
  | none => none
  | some hp => some hp.1

/-- The request fields `RemoteIP` reads: the transport-reported
`RemoteAddr` and the request headers (`http.Header.Get` returns the empty
string for an absent header). -/
structure IpReq where
  remoteAddr : GoStr
  headers : List (GoStr × GoStr)

/-- `http.Header.Get` over the modelled header list. -/
def headerGet (hs : List (GoStr × GoStr)) (name : GoStr) : GoStr :=
  match hs.find? (fun p => p.1 = name) with
  | some p => p.2
  | none => []

/-- `Context.RemoteIP`: split host from port (nil on failure), parse the
host, and — unless auto-proxy is disabled — when the transport IP is in a
trusted range and the named forwarding header is non-empty, return
`net.ParseIP` of the header value (which is nil when the header does not
parse); otherwise the transport IP. -/
def remoteIP (disableAutoProxy : Bool) (req : IpReq) : Option Nat :=
  match splitHostPort req.remoteAddr with
  | none => none
  | some ipS =>
    let ip := parseIPv4 ipS
    if !disableAutoProxy then
      let header :=
        match ip with
        | some v => evalIp v
        | none => []
      if header ≠ [] then
        let h := headerGet req.headers header
        if h ≠ [] then parseIPv4 h
        else ip
      else ip
    else ip

/-! ## The write-once invariant and concrete request fixtures -/

/-- The link between the shared consumed flag and the response writer: a
consumed request has at least one write on record. -/
def invW (b : Base) : Prop := b.consumed = true → b.writes ≠ []

/-- A GET request for `/x` carrying no headers. -/
def reqDefault : Req :=
  { method := gs "GET", path := gb "/x", acceptH := [], contentTypeH := [],
    connectionH := [], upgradeH := [] }

/-- The same request with `Accept: application/xml`. -/
def reqAcceptXml : Req := { reqDefault with acceptH := gs "application/xml" }

/-- The same request with `Accept: application/xml, application/json`. -/
def reqAcceptXmlJson : Req :=
  { reqDefault with acceptH := gs "application/xml, application/json" }

/-- The same request with `Accept: application/json`. -/
def reqAcceptJson : Req := { reqDefault with acceptH := gs "application/json" }

/-- The same request with `Accept: text/plain;q=0.9`. -/
def reqAcceptPlainQ : Req := { reqDefault with acceptH := gs "text/plain;q=0.9" }

/-- A POST request for `/api` carrying no headers. -/
def reqPost : Req :=
  { method := gs "POST", path := gb "/api", acceptH := [], contentTypeH := [],
    connectionH := [], upgradeH := [] }

/-- A value that JSON can render but XML cannot (for example a struct with
a field of a type `encoding/xml` rejects). -/
def bodyXmlFail : Value :=
  .vcustom { jsonOk := true, xmlOk := false, msgpackOk := true, yamlOk := true,
             stringer := none, htmler := none }

/-- A value no marshaller can render. -/
def bodyNoRender : Value :=
  .vcustom { jsonOk := false, xmlOk := false, msgpackOk := false, yamlOk := false,
             stringer := none, htmler := none }

/-- A user-facing error whose declared body cannot be rendered. -/
def errTeapot : ErrVal := .userFacing 418 bodyNoRender

/-- A router whose error handler reports, through the chosen status code,
whether it received the original request error (455) or some other error
value (466). -/
def cfgProbe : Cfg :=
  { errHandler := some (fun e => (Value.vmap [], if e = errTeapot then 455 else 466)) }

/-- A router program with one root `Static("api")` matcher whose builder
registers an inline POST handler that panics. -/
def progPanic (p : ErrVal) : List HSyn :=
  [(.static (gb "api"), [.methodA (gs "POST") (.panicO p)])]

/-- A context holding one nested `Static("x")` matcher whose builder
panics, against remaining path `/x`. -/
def ctxNestedPanic (p : ErrVal) : Ctx :=
  { base := base0, pathRem := gb "/x", handlers := [(.static (gb "x"), [.panicA p])],
    checks := [], getRunner := none, ws := none }

/-- A fresh context with an empty remaining path. -/
def ctxFresh : Ctx :=
  { base := base0, pathRem := [], handlers := [], checks := [], getRunner := none,
    ws := none }

/-- An already-consumed context (one 204 written). -/
def ctxConsumed : Ctx :=
  { base := { consumed := true, writes := [WEv.head 204], fuelOut := false },
    pathRem := [], handlers := [], checks := [], getRunner := none, ws := none }

/-- A request arriving from a Cloudflare address with a well-formed
forwarded-IP header. -/
def ipReqFwd : IpReq :=
  { remoteAddr := gs "173.245.48.1:443",
    headers := [(gs "CF-Connecting-IP", gs "203.0.113.9")] }

/-- The same transport address with an unparseable forwarded-IP header. -/
def ipReqBadHeader : IpReq :=
  { remoteAddr := gs "173.245.48.1:443",
    headers := [(gs "CF-Connecting-IP", gs "not-an-ip")] }

end Discobolt


namespace Discobolt

/-! # Theorems -/

/-! ## Path cursor lemmas -/

theorem takeUntilSlash_eq (p : GoBytes) :
    takeUntilSlash p = (p.takeWhile (fun b => b ≠ slashB), p.dropWhile (fun b => b ≠ slashB)) := by
  induction p with
  | nil => simp [takeUntilSlash]
  | cons b rest ih =>
    by_cases hb : b = slashB
    · simp [takeUntilSlash, hb, List.takeWhile_cons, List.dropWhile_cons]
    · simp [takeUntilSlash, hb, List.takeWhile_cons, List.dropWhile_cons, ih]

theorem consumeUntilSlash_eq (p : GoBytes) :
    consumeUntilSlash p =
      ((p.dropWhile (fun b => b = slashB)).takeWhile (fun b => b ≠ slashB),
       (p.dropWhile (fun b => b = slashB)).dropWhile (fun b => b ≠ slashB)) := by
  induction p with
  | nil => simp [consumeUntilSlash]
  | cons b rest ih =>
    by_cases hb : b = slashB
    · simpa [consumeUntilSlash, hb, List.dropWhile_cons] using ih
    · simp [consumeUntilSlash, hb, List.dropWhile_cons, takeUntilSlash_eq,
        List.takeWhile_cons]

theorem dropWhile_head_or_nil {α : Type} (pred : α → Bool) (l : List α) :
    l.dropWhile pred = [] ∨ ∀ x ∈ (l.dropWhile pred).take 1, pred x = false := by
  induction l with
  | nil => left; rfl
  | cons a t ih =>
    by_cases h : pred a
    · simpa [List.dropWhile_cons, h] using ih
    · right
      simp [List.dropWhile_cons, h]

/-- C7: for every byte-string path, `consumeUntilSlash` strips any number
of leading slashes, returns as the segment the bytes up to but not
including the next slash, and as the remainder the bytes starting at that
slash (empty when no further slash exists); the segment contains no slash,
and segment and remainder together reconstruct the slash-stripped input
(the input is a pure value and is never mutated). -/
theorem c7_consumeUntilSlash (p : GoBytes) :
    (consumeUntilSlash p).1 = (p.dropWhile (fun b => b = slashB)).takeWhile (fun b => b ≠ slashB) ∧
    (consumeUntilSlash p).2 = (p.dropWhile (fun b => b = slashB)).dropWhile (fun b => b ≠ slashB) ∧
    (∀ x ∈ (consumeUntilSlash p).1, x ≠ slashB) ∧
    ((consumeUntilSlash p).2 = [] ∨ (consumeUntilSlash p).2.headD slashB = slashB) ∧
    (consumeUntilSlash p).1 ++ (consumeUntilSlash p).2 = p.dropWhile (fun b => b = slashB) := by
  have h := consumeUntilSlash_eq p
  refine ⟨by rw [h], by rw [h], ?_, ?_, ?_⟩
  · intro x hx
    rw [h] at hx
    have := List.mem_takeWhile_imp hx
    simpa using this
  · rw [h]
    rcases dropWhile_head_or_nil (fun b => decide (b ≠ slashB))
      (p.dropWhile (fun b => b = slashB)) with h2 | h2
    · left; simpa using h2
    · right
      rcases he : (p.dropWhile (fun b => b = slashB)).dropWhile (fun b => b ≠ slashB) with _ | ⟨x, t⟩
      · simp
      · have hx := h2 x (by rw [show ((p.dropWhile fun b => b = slashB).dropWhile
          fun b => decide (b ≠ slashB)) = x :: t from by simpa using he]; simp)
        simp only [decide_not, Bool.not_eq_false', decide_eq_true_eq] at hx
        simp [hx]
  · rw [h]
    simp [List.takeWhile_append_dropWhile]

/-! ## C10: addHandler on a consumed context -/

/-- C10: once the shared consumed flag is set, `Context.addHandler` leaves
the whole context untouched. -/
theorem c10_addHandler_noop (c : Ctx) (h : HSyn) (hcons : c.base.consumed = true) :
    addHandlerCtx c h = c := by
  unfold addHandlerCtx
  simp [hcons]

/-- C10 witness: a consumed context with one pending matcher registration
stays unchanged. -/
theorem c10_addHandler_noop_witness :
    addHandlerCtx ctxConsumed (MKind.intM, []) = ctxConsumed :=
  c10_addHandler_noop ctxConsumed (MKind.intM, []) rfl

end Discobolt

namespace Discobolt

/-! ## C5: handler-list sorting -/

theorem insertHandler_perm (h : HSyn) (l : List HSyn) :
    (insertHandler h l).Perm (h :: l) := by
  induction l with
  | nil => simp [insertHandler]
  | cons x xs ih =>
    simp only [insertHandler]
    split
    · exact List.Perm.refl _
    · exact (ih.cons x).trans (List.Perm.swap h x xs)

theorem insertHandler_sorted (h : HSyn) (l : List HSyn)
    (hl : handlersSortedDesc l) : handlersSortedDesc (insertHandler h l) := by
  induction l with
  | nil => simp [insertHandler, handlersSortedDesc]
  | cons x xs ih =>
    simp only [insertHandler]
    rcases List.pairwise_cons.mp hl with ⟨hx, hxs⟩
    split
    case isTrue hgt =>
      refine List.pairwise_cons.mpr ⟨?_, hl⟩
      intro y hy
      rcases List.mem_cons.mp hy with hy1 | hy1
      · subst hy1; omega
      · exact le_trans (hx y hy1) (le_of_lt hgt)
    case isFalse hle =>
      refine List.pairwise_cons.mpr ⟨?_, ih hxs⟩
      intro y hy
      rcases List.mem_cons.mp ((insertHandler_perm h xs).mem_iff.mp hy) with hy2 | hy2
      · subst hy2; omega
      · exact hx y hy2

theorem foldl_insertHandler_perm (l : List HSyn) :
    ∀ acc : List HSyn,
      (l.foldl (fun acc h => insertHandler h acc) acc).Perm (acc ++ l) := by
  induction l with
  | nil => intro acc; simp
  | cons h t ih =>
    intro acc
    exact (ih (insertHandler h acc)).trans
      (((insertHandler_perm h acc).append_right t).trans (List.perm_middle).symm)

theorem foldl_insertHandler_sorted (l : List HSyn) :
    ∀ acc : List HSyn, handlersSortedDesc acc →
      handlersSortedDesc (l.foldl (fun acc h => insertHandler h acc) acc) := by
  induction l with
  | nil => intro acc ha; exact ha
  | cons h t ih =>
    intro acc ha
    exact ih (insertHandler h acc) (insertHandler_sorted h acc ha)

theorem sortHandlers_perm (l : List HSyn) : (sortHandlers l).Perm l := by
  simpa [sortHandlers] using foldl_insertHandler_perm l []

theorem sortHandlers_sorted (l : List HSyn) : handlersSortedDesc (sortHandlers l) := by
  have := foldl_insertHandler_sorted l [] (by simp [handlersSortedDesc])
  simpa [sortHandlers] using this

/-- C5 (amended): every registration keeps the handler list sorted by
priority descending — `Static` and `Remainder` at priority 2 come before
`Int`/`Uint`/`Float`/`String` at priority 1; the executable append-then-sort
step satisfies `sort.Sort`'s documented contract (sorted permutation).
What the original claim adds — that equal-priority handlers stay in
registration order — is NOT guaranteed: the code calls `sort.Sort`, whose
contract permits any sorted permutation (see the counterexample). -/
theorem c5_priorities_and_sorted :
    (∀ t, prioOf (MKind.static t) = 2) ∧ prioOf MKind.remainder = 2 ∧
    prioOf MKind.intM = 1 ∧ prioOf MKind.uintM = 1 ∧
    prioOf MKind.floatM = 1 ∧ prioOf MKind.stringM = 1 ∧
    (∀ (l : List HSyn) (h : HSyn), sortSortPost (l ++ [h]) (routerAddHandler l h)) := by
  refine ⟨fun t => rfl, rfl, rfl, rfl, rfl, rfl, fun l h => ⟨?_, ?_⟩⟩
  · exact sortHandlers_perm (l ++ [h])
  · exact sortHandlers_sorted (l ++ [h])

/-- C5 counterexample: the contract of the sort the code performs
(`sort.Sort`, not `sort.Stable`) admits, for a registration-ordered input
`[Static "me", Int, Uint]`, the output `[Static "me", Uint, Int]` — sorted
by priority descending but with the two equal-priority handlers out of
registration order.  The claimed stability is therefore not an invariant
the code guarantees. -/
theorem c5_counterexample :
    sortSortPost
      [(MKind.static (gb "me"), []), (MKind.intM, []), (MKind.uintM, [])]
      [(MKind.static (gb "me"), []), (MKind.uintM, []), (MKind.intM, [])] ∧
    [(MKind.static (gb "me"), ([] : List RAct)), (MKind.uintM, []), (MKind.intM, [])] ≠
      [(MKind.static (gb "me"), []), (MKind.intM, []), (MKind.uintM, [])] := by
  refine ⟨⟨?_, ?_⟩, ?_⟩
  · exact List.Perm.cons _ (List.Perm.swap _ _ _)
  · simp [handlersSortedDesc, List.pairwise_cons, prioOf]
  · intro hcontra
    have := List.cons.injEq _ _ _ _ ▸ hcontra
    simp at this

end Discobolt

namespace Discobolt

/-! ## C6: quality parameters are not stripped -/

/-- C6 (code-bug evidence): `strings.SplitN(part, ";", 1)` does not split
— contradicting the adjacent source comment — so a candidate carrying a
quality parameter matches no codec case: with `Accept: text/plain;q=0.9`
and a string body (which has the plain-text capability), the response is
NOT rendered as `text/plain`; the loop exhausts and the JSON fallback
writes instead. -/
theorem c6_qparam_not_stripped :
    goSplitN ';' 1 (gs "text/plain;q=0.9") = [gs "text/plain;q=0.9"] ∧
    consumeHandler reqAcceptPlainQ base0 200 (Value.vstr (gs "hi")) =
      ({ consumed := true,
         writes := [WEv.head 200, WEv.body (gs "application/json")],
         fuelOut := false }, none) :=
  ⟨rfl, rfl⟩

/-! ## C9: RemoteIP -/

theorem headerGet_cons_self (n v : GoStr) (hs : List (GoStr × GoStr)) :
    headerGet ((n, v) :: hs) n = v := by
  simp [headerGet, List.find?]

theorem parseIPv4_nil : parseIPv4 [] = none := rfl

/-- C9 (amended): with proxy auto-detection enabled, a request from
`173.245.48.1` (inside the first trusted Cloudflare range) with
`CF-Connecting-IP: 203.0.113.9` resolves to `203.0.113.9`, and with
auto-detection disabled to `173.245.48.1`; in general, for that trusted
transport address, any present and parseable forwarding header value is
used, an absent header leaves the transport address in effect, and — the
amendment — a present but unparseable header value makes `RemoteIP` return
nil (no address), not the transport address. -/
theorem c9_remoteIP :
    remoteIP false ipReqFwd = some (mkIPv4 203 0 113 9) ∧
    remoteIP true ipReqFwd = some (mkIPv4 173 245 48 1) ∧
    (∀ (v : GoStr) (w : Nat) (hs : List (GoStr × GoStr)), parseIPv4 v = some w →
      remoteIP false
        { remoteAddr := gs "173.245.48.1:443",
          headers := (gs "CF-Connecting-IP", v) :: hs } = some w) ∧
    (∀ hs : List (GoStr × GoStr), headerGet hs (gs "CF-Connecting-IP") = [] →
      remoteIP false { remoteAddr := gs "173.245.48.1:443", headers := hs } =
        some (mkIPv4 173 245 48 1)) ∧
    (∀ (v : GoStr) (hs : List (GoStr × GoStr)), parseIPv4 v = none → v ≠ [] →
      remoteIP false
        { remoteAddr := gs "173.245.48.1:443",
          headers := (gs "CF-Connecting-IP", v) :: hs } = none) := by
  refine ⟨rfl, rfl, ?_, ?_, ?_⟩
  · intro v w hs hv
    have hvne : v ≠ [] := by
      intro hnil
      rw [hnil, parseIPv4_nil] at hv
      exact Option.noConfusion hv
    unfold remoteIP
    rw [show splitHostPort (gs "173.245.48.1:443") = some (gs "173.245.48.1") from rfl]
    simp only [show parseIPv4 (gs "173.245.48.1") = some (mkIPv4 173 245 48 1) from rfl,
      show evalIp (mkIPv4 173 245 48 1) = gs "CF-Connecting-IP" from rfl,
      headerGet_cons_self]
    simp [hvne, hv, show gs "CF-Connecting-IP" ≠ ([] : GoStr) from by decide]
  · intro hs hget
    unfold remoteIP
    rw [show splitHostPort (gs "173.245.48.1:443") = some (gs "173.245.48.1") from rfl]
    simp only [show parseIPv4 (gs "173.245.48.1") = some (mkIPv4 173 245 48 1) from rfl,
      show evalIp (mkIPv4 173 245 48 1) = gs "CF-Connecting-IP" from rfl, hget]
    simp
  · intro v hs hv hvne
    unfold remoteIP
    rw [show splitHostPort (gs "173.245.48.1:443") = some (gs "173.245.48.1") from rfl]
    simp only [show parseIPv4 (gs "173.245.48.1") = some (mkIPv4 173 245 48 1) from rfl,
      show evalIp (mkIPv4 173 245 48 1) = gs "CF-Connecting-IP" from rfl,
      headerGet_cons_self]
    simp [hvne, hv, show gs "CF-Connecting-IP" ≠ ([] : GoStr) from by decide]

/-- C9 counterexample: a trusted transport address carrying an unparseable
forwarding header resolves to nil, not to the transport-reported address
as the claim's "otherwise" clause states. -/
theorem c9_counterexample :
    remoteIP false ipReqBadHeader = none ∧
    remoteIP false ipReqBadHeader ≠ some (mkIPv4 173 245 48 1) := by
  refine ⟨rfl, ?_⟩
  rw [show remoteIP false ipReqBadHeader = none from rfl]
  exact Option.noConfusion

/-- C9 witness: the general clauses of the amended statement instantiated
at concrete header lists. -/
theorem c9_witness :
    remoteIP false
      { remoteAddr := gs "173.245.48.1:443",
        headers := [(gs "CF-Connecting-IP", gs "198.51.100.7")] } =
      some (mkIPv4 198 51 100 7) ∧
    remoteIP false { remoteAddr := gs "173.245.48.1:443", headers := [] } =
      some (mkIPv4 173 245 48 1) ∧
    remoteIP false
      { remoteAddr := gs "173.245.48.1:443",
        headers := [(gs "CF-Connecting-IP", gs "nope")] } = none :=
  ⟨c9_remoteIP.2.2.1 (gs "198.51.100.7") (mkIPv4 198 51 100 7) [] rfl,
   c9_remoteIP.2.2.2.1 [] rfl,
   c9_remoteIP.2.2.2.2 (gs "nope") [] rfl (by decide)⟩

end Discobolt

namespace Discobolt

/-! ## Structure lemmas for `consumeHandler` -/

/-- Every run of the negotiation loop either appends a nonempty batch of
writes and reports success, or leaves the state untouched and returns an
error. -/
theorem negotiate_spec (b : Base) (s : Nat) (v : Value) :
    ∀ parts : List GoStr,
      (∃ w t, negotiate b s v parts = ({ b with writes := b.writes ++ w :: t }, none)) ∨
      (∃ e, negotiate b s v parts = (b, some e)) := by
  intro parts
  induction parts with
  | nil =>
    simp only [negotiate, jsonSend]
    split
    · exact Or.inl ⟨_, _, rfl⟩
    · exact Or.inr ⟨_, rfl⟩
  | cons part rest ih =>
    simp only [negotiate, jsonSend]
    repeat' split
    all_goals first
      | exact Or.inl ⟨_, _, rfl⟩
      | exact Or.inr ⟨_, rfl⟩
      | exact ih

/-- The shape of every `consumeHandlerCore` outcome: a no-op on a consumed
state, a success appending a nonempty batch of writes, or an error with
the state untouched. -/
theorem consumeHandlerCore_spec (req : Req) (b : Base) (s : Nat) (v : Value) :
    (consumeHandlerCore req b s v = (b, none) ∧ b.consumed = true) ∨
    (∃ b2 w t, consumeHandlerCore req b s v = (b2, none) ∧
      b2.writes = b.writes ++ w :: t) ∨
    (∃ e, consumeHandlerCore req b s v = (b, some e)) := by
  unfold consumeHandlerCore
  split
  case isTrue h => exact Or.inl ⟨rfl, h⟩
  case isFalse h =>
    split
    · exact Or.inr (Or.inl ⟨_, _, _, rfl, rfl⟩)
    · split
      · exact Or.inr (Or.inr ⟨_, rfl⟩)
      · split
        case h_1 url perm heq => exact Or.inr (Or.inl ⟨_, _, _, rfl, rfl⟩)
        case h_2 =>
          rcases negotiate_spec b s v (goSplitChar ',' (effAccept req)) with ⟨w, t, hn⟩ | ⟨e, hn⟩
          · exact Or.inr (Or.inl ⟨_, _, _, hn, rfl⟩)
          · exact Or.inr (Or.inr ⟨_, hn⟩)

/-- The same classification for `consumeHandler` (after the deferred
consumed-update): success marks the state consumed. -/
theorem consumeHandler_spec (req : Req) (b : Base) (s : Nat) (v : Value) :
    (∃ b2, consumeHandler req b s v = (b2, none) ∧ b2.consumed = true ∧
      (b2.writes = b.writes ∧ b.consumed = true ∨ ∃ w t, b2.writes = b.writes ++ w :: t)) ∨
    (∃ e, consumeHandler req b s v = (b, some e)) := by
  unfold consumeHandler
  rcases consumeHandlerCore_spec req b s v with ⟨heq, hc⟩ | ⟨b2, w, t, heq, hw⟩ | ⟨e, heq⟩
  · rw [heq]
    exact Or.inl ⟨_, rfl, rfl, Or.inl ⟨rfl, hc⟩⟩
  · rw [heq]
    exact Or.inl ⟨_, rfl, rfl, Or.inr ⟨w, t, hw⟩⟩
  · rw [heq]
    exact Or.inr ⟨e, rfl⟩

/-- A second `consumeHandler` call on a consumed state is a no-op
returning nil: the state (including the write log) is unchanged. -/
theorem consumeHandler_noop (req : Req) (b : Base) (s : Nat) (v : Value)
    (hc : b.consumed = true) : consumeHandler req b s v = (b, none) := by
  unfold consumeHandler consumeHandlerCore
  rw [hc]
  rcases b with ⟨c, w, f⟩
  simp at hc
  simp [hc]

theorem consumeHandler_err_eq (req : Req) (b : Base) (s : Nat) (v : Value) (e : ErrVal)
    (h : (consumeHandler req b s v).2 = some e) : (consumeHandler req b s v).1 = b := by
  rcases consumeHandler_spec req b s v with ⟨b2, heq, _, _⟩ | ⟨e2, heq⟩
  · rw [heq] at h; exact absurd h (by simp)
  · rw [heq]

theorem consumeHandler_ok_consumed (req : Req) (b : Base) (s : Nat) (v : Value)
    (h : (consumeHandler req b s v).2 = none) : (consumeHandler req b s v).1.consumed = true := by
  rcases consumeHandler_spec req b s v with ⟨b2, heq, hcons, _⟩ | ⟨e2, heq⟩
  · rw [heq]; exact hcons
  · rw [heq] at h; exact absurd h (by simp)

theorem invW_consumeHandler (req : Req) (b : Base) (s : Nat) (v : Value)
    (h : invW b) : invW (consumeHandler req b s v).1 := by
  rcases consumeHandler_spec req b s v with ⟨b2, heq, hcons, hw⟩ | ⟨e2, heq⟩
  · rw [heq]
    intro _
    rcases hw with ⟨hweq, hbc⟩ | ⟨w, t, hweq⟩
    · rw [hweq]; exact h hbc
    · rw [hweq]; simp
  · rw [heq]; exact h

end Discobolt

namespace Discobolt

/-! ## The always-JSON path for the fallback body -/

theorem core_vmap_json (req : Req) (b : Base) (s : Nat) (m : List (GoStr × GoStr))
    (ha : effAccept req = gs "application/json") (h204 : s ≠ 204) (hc : b.consumed = false) :
    consumeHandlerCore req b s (.vmap m) =
      ({ b with writes := b.writes ++ [WEv.head s, WEv.body (gs "application/json")] }, none) := by
  unfold consumeHandlerCore
  rw [if_neg (show ¬(b.consumed = true) by simp [hc]), if_neg h204,
    if_neg (show ¬(Value.vmap m = Value.vredirectNilPtr) by simp), ha]
  rw [show goSplitChar ',' (gs "application/json") = [gs "application/json"] from rfl]
  rfl

/-- When the effective accept header is exactly `application/json`, a
`map[string]string` body always renders: one header write and one JSON
body write, and the state becomes consumed. -/
theorem consumeHandler_vmap_json (req : Req) (b : Base) (s : Nat) (m : List (GoStr × GoStr))
    (ha : effAccept req = gs "application/json") (h204 : s ≠ 204) (hc : b.consumed = false) :
    consumeHandler req b s (.vmap m) =
      ({ b with consumed := true, writes := b.writes ++ [WEv.head s, WEv.body (gs "application/json")] }, none) := by
  unfold consumeHandler
  rw [core_vmap_json req b s m ha h204 hc]
  rfl

theorem classifyFallback_ne_204 (e : ErrVal) : (classifyFallback e).2 ≠ 204 := by
  unfold classifyFallback
  split
  · simp
  · split <;> simp

/-! ## `handleError` lemmas -/

theorem invW_handleErrorStep3 (req : Req) (b : Base) (e : ErrVal) (h : invW b) :
    invW (handleErrorStep3 req b e) := by
  unfold handleErrorStep3
  dsimp only
  exact invW_consumeHandler req b _ _ h

theorem handleErrorStep3_writes_json (req : Req) (b : Base) (e : ErrVal)
    (ha : effAccept req = gs "application/json") (h : invW b) :
    (handleErrorStep3 req b e).writes ≠ [] := by
  unfold handleErrorStep3
  dsimp only
  by_cases hb : b.consumed = true
  · rw [consumeHandler_noop req b _ _ hb]
    exact h hb
  · rw [consumeHandler_vmap_json req b _ _ ha (classifyFallback_ne_204 e)
      (by simpa using hb)]
    simp

theorem invW_handleErrorStep2 (req : Req) (cfg : Cfg) (b : Base) (e : ErrVal) (h : invW b) :
    invW (handleErrorStep2 req cfg b e) := by
  unfold handleErrorStep2
  rcases cfg.errHandler with _ | f
  · exact invW_handleErrorStep3 req b e h
  · simp only []
    rcases h2 : (consumeHandler req b (f e).2 (f e).1).2 with _ | e2
    · simp only [h2]
      exact invW_consumeHandler req b _ _ h
    · simp only [h2]
      exact invW_handleErrorStep3 req _ _ (invW_consumeHandler req b _ _ h)

theorem handleErrorStep2_writes_json (req : Req) (cfg : Cfg) (b : Base) (e : ErrVal)
    (ha : effAccept req = gs "application/json") (h : invW b) :
    (handleErrorStep2 req cfg b e).writes ≠ [] := by
  unfold handleErrorStep2
  rcases cfg.errHandler with _ | f
  · exact handleErrorStep3_writes_json req b e ha h
  · simp only []
    rcases h2 : (consumeHandler req b (f e).2 (f e).1).2 with _ | e2
    · simp only [h2]
      exact (invW_consumeHandler req b _ _ h) (consumeHandler_ok_consumed req b _ _ h2)
    · simp only [h2]
      exact handleErrorStep3_writes_json req _ _ ha (invW_consumeHandler req b _ _ h)

theorem invW_handleError (req : Req) (cfg : Cfg) (b : Base) (e : ErrVal) (h : invW b) :
    invW (handleError req cfg b e) := by
  unfold handleError
  rcases findUserFacing e with _ | sb
  · exact invW_handleErrorStep2 req cfg b e h
  · simp only []
    rcases h2 : (consumeHandler req b sb.1 sb.2).2 with _ | e1
    · simp only [h2]
      exact invW_consumeHandler req b _ _ h
    · simp only [h2]
      exact invW_handleErrorStep2 req cfg _ _ (invW_consumeHandler req b _ _ h)

theorem handleError_writes_json (req : Req) (cfg : Cfg) (b : Base) (e : ErrVal)
    (ha : effAccept req = gs "application/json") (h : invW b) :
    (handleError req cfg b e).writes ≠ [] := by
  unfold handleError
  rcases findUserFacing e with _ | sb
  · exact handleErrorStep2_writes_json req cfg b e ha h
  · simp only []
    rcases h2 : (consumeHandler req b sb.1 sb.2).2 with _ | e1
    · simp only [h2]
      exact (invW_consumeHandler req b _ _ h) (consumeHandler_ok_consumed req b _ _ h2)
    · simp only [h2]
      exact handleErrorStep2_writes_json req cfg _ _ ha (invW_consumeHandler req b _ _ h)

end Discobolt


namespace Discobolt

/-! ## Invariant preservation through dispatch -/

theorem invW_runChecksA (req : Req) (cfg : Cfg) :
    ∀ (cks : List COutcome) (b : Base), invW b → invW (runChecksA req cfg b cks).1 := by
  intro cks
  induction cks with
  | nil => intro b h; exact h
  | cons ck rest ih =>
    intro b h
    cases ck with
    | okC => exact ih b h
    | errC e => exact invW_handleError req cfg b e h
    | panicC p => exact h

theorem invW_methodH (req : Req) (cfg : Cfg) (c : Ctx) (m : GoStr) (h : HOutcome)
    (hi : invW c.base) : invW (methodH req cfg c m h).1.base := by
  unfold methodH
  split
  · exact hi
  · rcases hrc : runChecksA req cfg c.base c.checks with ⟨b, res⟩
    have hb : invW b := by
      have h3 := invW_runChecksA req cfg c.checks c.base hi
      rw [hrc] at h3
      exact h3
    cases res with
    | panickedR p => exact hb
    | erroredR => exact hb
    | okR =>
      dsimp only
      split
      · exact hb
      · cases h with
        | panicO p => exact hb
        | ret v e =>
          cases e with
          | some err => exact invW_handleError req cfg b err hb
          | none =>
            dsimp only
            rcases h2 : (consumeHandler req b (if isNilValue v then 204 else 200) v).2
              with _ | e2
            · exact invW_consumeHandler req b _ _ hb
            · exact invW_handleError req cfg _ _ (invW_consumeHandler req b _ _ hb)

theorem base_addHandlerCtx (c : Ctx) (h : HSyn) : (addHandlerCtx c h).base = c.base := by
  unfold addHandlerCtx
  split <;> rfl

theorem invW_runActs (req : Req) (cfg : Cfg) :
    ∀ (acts : List RAct) (c : Ctx), invW c.base → invW (runActs req cfg c acts).1.base := by
  intro acts
  induction acts with
  | nil => intro c h; exact h
  | cons a rest ih =>
    intro c h
    cases a with
    | matcher k body =>
      simp only [runActs]
      exact ih _ (by rw [base_addHandlerCtx]; exact h)
    | getA hh =>
      simp only [runActs]
      exact ih _ h
    | methodA m hh =>
      simp only [runActs]
      rcases hm : methodH req cfg c m hh with ⟨c2, fl⟩
      have h2 : invW c2.base := by
        have h3 := invW_methodH req cfg c m hh h
        rw [hm] at h3
        exact h3
      cases fl with
      | panicked p => exact h2
      | normal => exact ih c2 h2
    | websocketA hs w =>
      simp only [runActs]
      exact ih _ h
    | addCheckA ck =>
      simp only [runActs]
      exact ih _ h
    | panicA p =>
      simp only [runActs]
      exact h

theorem invW_getPhase (req : Req) (cfg : Cfg) (c : Ctx) (hi : invW c.base) :
    invW (afterExecGetPhase req cfg c).1.base := by
  unfold afterExecGetPhase
  split
  · split
    · split
      · exact invW_methodH req cfg c _ _ hi
      · exact hi
    · split
      · split
        · split
          · split
            · intro _; simp
            · exact invW_handleError req cfg _ _ (by intro _; simp)
            · intro _; simp
          · intro _; simp
        · split
          · exact invW_methodH req cfg c _ _ hi
          · exact hi
      · exact hi
  · exact hi

theorem invW_handlerLoopF (req : Req) (cfg : Cfg) (exec : Ctx → Base)
    (hexec : ∀ c : Ctx, invW c.base → invW (exec c)) :
    ∀ (hs : List HSyn) (b : Base) (p : GoBytes), invW b →
      invW (handlerLoopF exec req cfg b p hs).1 := by
  intro hs
  induction hs with
  | nil => intro b p h; exact h
  | cons hd rest ih =>
    intro b p h
    simp only [handlerLoopF]
    split
    · rcases hr : runActs req cfg
        { base := b, pathRem := (mcheck hd.1 p).2, handlers := [], checks := [],
          getRunner := none, ws := none } hd.2 with ⟨c2, fl⟩
      have h2 : invW c2.base := by
        have h3 := invW_runActs req cfg hd.2
          { base := b, pathRem := (mcheck hd.1 p).2, handlers := [], checks := [],
            getRunner := none, ws := none } h
        rw [hr] at h3
        exact h3
      cases fl with
      | panicked pe => exact h2
      | normal =>
        dsimp only
        split
        · exact hexec c2 h2
        · exact ih (exec c2) p (hexec c2 h2)
    · exact ih b p h

theorem invW_afterExec (req : Req) (cfg : Cfg) :
    ∀ (fuel : Nat) (c : Ctx), invW c.base → invW (afterExec req cfg fuel c) := by
  intro fuel
  induction fuel with
  | zero =>
    intro c h hc
    exact h hc
  | succ fuel ih =>
    intro c h
    simp only [afterExec]
    split
    · exact h
    · rcases hge : afterExecGetPhase req cfg c with ⟨c1, fl1, early⟩
      have hg : invW c1.base := by
        have h3 := invW_getPhase req cfg c h
        rw [hge] at h3
        exact h3
      cases fl1 with
      | panicked p => exact invW_handleError req cfg c1.base p hg
      | normal =>
        dsimp only
        split
        · exact hg
        · rcases hrc : runChecksA req cfg c1.base c1.checks with ⟨b, res⟩
          have hb : invW b := by
            have h3 := invW_runChecksA req cfg c1.checks c1.base hg
            rw [hrc] at h3
            exact h3
          cases res with
          | erroredR => exact hb
          | panickedR p => exact invW_handleError req cfg b p hb
          | okR =>
            dsimp only
            rcases hle : handlerLoopF (afterExec req cfg fuel) req cfg b c1.pathRem c1.handlers
              with ⟨b2, fl2⟩
            have hl : invW b2 := by
              have h3 := invW_handlerLoopF req cfg (afterExec req cfg fuel) ih
                c1.handlers b c1.pathRem hb
              rw [hle] at h3
              exact h3
            cases fl2 with
            | panicked p => exact invW_handleError req cfg b2 p hl
            | normal => exact hl

end Discobolt

namespace Discobolt

/-! ## ServeHTTP-level write guarantee (JSON default) -/

/-- Every root dispatch either escapes with a panic or, when the effective
accept header is `application/json`, ends with at least one write on
record. -/
theorem serveRoot_writes_disj (req : Req) (cfg : Cfg) (fuel : Nat)
    (ha : effAccept req = gs "application/json") :
    ∀ (hs : List HSyn) (ctx : Ctx), invW ctx.base →
      (∃ p, (serveRoot req cfg fuel ctx hs).2 = Flow.panicked p) ∨
      (serveRoot req cfg fuel ctx hs).1.base.writes ≠ [] := by
  intro hs
  induction hs with
  | nil =>
    intro ctx hi
    right
    exact handleError_writes_json req cfg ctx.base .routeNotFound ha hi
  | cons hd rest ih =>
    intro ctx hi
    cases hok : (mcheck hd.1 req.path).1 with
    | false =>
      simp only [serveRoot, hok, Bool.false_eq_true, if_false]
      exact ih ctx hi
    | true =>
      simp only [serveRoot, hok, if_true]
      rcases hrA : runActs req cfg { ctx with pathRem := (mcheck hd.1 req.path).2 } hd.2
        with ⟨c2, fl⟩
      have hc2 : invW c2.base := by
        have h3 := invW_runActs req cfg hd.2 { ctx with pathRem := (mcheck hd.1 req.path).2 } hi
        rw [hrA] at h3
        exact h3
      cases fl with
      | panicked p => exact Or.inl ⟨p, rfl⟩
      | normal =>
        dsimp only
        have hb2 : invW (afterExec req cfg fuel c2) := invW_afterExec req cfg fuel c2 hc2
        cases hcons : (afterExec req cfg fuel c2).consumed with
        | true =>
          simp only [hcons, if_true]
          exact Or.inr (hb2 hcons)
        | false =>
          simp only [hcons, Bool.false_eq_true, if_false]
          exact ih { c2 with base := afterExec req cfg fuel c2 } hb2

/-! ## C1 -/

/-- C1 (amended): once the shared consumed flag of a request chain is set,
every subsequent `consumeHandler` call is a no-op returning nil with no
state change; and a response write is guaranteed for every non-panicking
request whose effective accept header resolves to `application/json` (the
absent-header default).  The unconditional "at least one write always
occurs" of the original claim is false — see the counterexample, where an
`Accept: application/xml` request that matches no route gets no response
at all because the not-found fallback cannot XML-render its map body. -/
theorem c1_write_once :
    (∀ (req : Req) (b : Base) (s : Nat) (v : Value), b.consumed = true →
      consumeHandler req b s v = (b, none)) ∧
    (∀ (cfg : Cfg) (fuel : Nat) (prog : List HSyn) (req : Req),
      effAccept req = gs "application/json" →
      (serveHTTP cfg fuel prog req).2 = Flow.normal →
      (serveHTTP cfg fuel prog req).1.base.writes ≠ []) := by
  constructor
  · intro req b s v hc
    exact consumeHandler_noop req b s v hc
  · intro cfg fuel prog req ha hnorm
    have hinv : invW base0 := by
      intro hc
      simp [base0] at hc
    have hd := serveRoot_writes_disj req cfg fuel ha prog (initCtx req)
      (by simpa [initCtx] using hinv)
    rcases hd with ⟨p, hp⟩ | hw
    · rw [show (serveHTTP cfg fuel prog req).2 =
        (serveRoot req cfg fuel (initCtx req) prog).2 from rfl, hp] at hnorm
      exact absurd hnorm (by simp)
    · exact hw

/-- C1 counterexample: a GET for `/x` with `Accept: application/xml` and
no registered routes.  `ServeHTTP` returns normally having written
NOTHING: the 404 fallback body is a map, `xml.Marshal` rejects maps, and
the error of the final `consumeHandler` is discarded.  This refutes "at
least one write always occurs". -/
theorem c1_counterexample :
    (serveHTTP cfg0 1 [] reqAcceptXml).1.base.writes = [] ∧
    (serveHTTP cfg0 1 [] reqAcceptXml).2 = Flow.normal ∧
    (serveHTTP cfg0 1 [] reqAcceptXml).1.base.consumed = false :=
  ⟨rfl, rfl, rfl⟩

/-- C1 witness: the no-op clause at a concrete consumed state, and the
guaranteed 404 write for a default-accept request with no routes. -/
theorem c1_write_once_witness :
    consumeHandler reqAcceptJson
      { consumed := true, writes := [WEv.head 200], fuelOut := false } 200 (Value.vmap []) =
      ({ consumed := true, writes := [WEv.head 200], fuelOut := false }, none) ∧
    (serveHTTP cfg0 1 [] reqDefault).1.base.writes ≠ [] :=
  ⟨c1_write_once.1 reqAcceptJson _ 200 (Value.vmap []) rfl,
   c1_write_once.2 cfg0 1 [] reqDefault rfl rfl⟩

end Discobolt

namespace Discobolt

/-! ## C2 -/

/-- C2 (amended): during output negotiation, a `text/plain` or `text/html`
candidate whose capability the value lacks makes the negotiator move to
the next candidate; but a candidate whose RENDERING fails — here
`application/xml` on a value `xml.Marshal` rejects — makes `consumeHandler`
return the marshal error immediately, writing nothing and trying no later
candidate.  In particular `Accept: application/xml, application/json` with
an XML-unrenderable, JSON-renderable body does NOT produce a JSON
response (see the counterexample). -/
theorem c2_negotiation_fallthrough (b : Base) (s : Nat) (body : Value) (rest : List GoStr)
    (hstr : stringerOf body = none) (hhtml : htmlerOf body = none)
    (hxml : xmlRender body = false) :
    negotiate b s body (gs "text/plain" :: rest) = negotiate b s body rest ∧
    negotiate b s body (gs "text/html" :: rest) = negotiate b s body rest ∧
    negotiate b s body (gs "application/xml" :: rest) =
      (b, some (ErrVal.plain (gs "xml: unsupported type"))) := by
  refine ⟨?_, ?_, ?_⟩
  · simp only [negotiate]
    rw [if_neg (by decide), if_neg (by decide), if_neg (by decide), if_pos (by decide), hstr]
  · simp only [negotiate]
    rw [if_neg (by decide), if_neg (by decide), if_neg (by decide), if_neg (by decide),
      if_pos (by decide), hhtml]
  · simp only [negotiate]
    rw [if_neg (by decide), if_pos (by decide), hxml]
    simp

/-- C2 counterexample: `Accept: application/xml, application/json` with a
body that JSON can render but XML cannot.  `consumeHandler` returns the
XML marshal error with no write and no consumed flag — it does not move
on to the JSON candidate as the claim states. -/
theorem c2_counterexample :
    consumeHandler reqAcceptXmlJson base0 200 bodyXmlFail =
      (base0, some (ErrVal.plain (gs "xml: unsupported type"))) ∧
    (consumeHandler reqAcceptXmlJson base0 200 bodyXmlFail).1.writes = [] :=
  ⟨rfl, rfl⟩

/-- C2 witness: the fall-through and hard-failure clauses instantiated on
a map body (no string or HTML capability; `xml.Marshal` rejects maps),
with a JSON candidate following. -/
theorem c2_negotiation_fallthrough_witness :
    negotiate base0 200 (Value.vmap []) (gs "text/plain" :: [gs "application/json"]) =
      negotiate base0 200 (Value.vmap []) [gs "application/json"] ∧
    negotiate base0 200 (Value.vmap []) (gs "text/html" :: [gs "application/json"]) =
      negotiate base0 200 (Value.vmap []) [gs "application/json"] ∧
    negotiate base0 200 (Value.vmap []) (gs "application/xml" :: [gs "application/json"]) =
      (base0, some (ErrVal.plain (gs "xml: unsupported type"))) :=
  c2_negotiation_fallthrough base0 200 (Value.vmap []) [gs "application/json"] rfl rfl rfl

end Discobolt

namespace Discobolt

/-! ## C3 -/

/-- C3 (amended): the error-resolution chain of `handleError` runs in the
claimed order — user-facing render first, then the configurable handler,
then the fixed fallback classified 404 (`RouteNotFound` in the chain) /
400 (`BadRequest`-classified) / 500 (anything else) — with two
corrections.  First, when an earlier stage's rendering fails, the NEXT
stage is invoked with that render error, not the original request error
(the `err` variable is reassigned).  Second, the final fallback is not
unconditionally successful: it renders through content negotiation, and is
guaranteed to write only when the effective accept header resolves to
`application/json` (the absent-header default) — under `Accept:
application/xml` it writes nothing (see the counterexample). -/
theorem c3_error_chain :
    (∀ (req : Req) (cfg : Cfg) (b : Base) (err : ErrVal),
      effAccept req = gs "application/json" → invW b →
      (handleError req cfg b err).writes ≠ []) ∧
    (∀ (req : Req) (cfg : Cfg) (b : Base) (err : ErrVal) (sb : Nat × Value),
      findUserFacing err = some sb → (consumeHandler req b sb.1 sb.2).2 = none →
      handleError req cfg b err = (consumeHandler req b sb.1 sb.2).1) ∧
    (∀ (req : Req) (cfg : Cfg) (b : Base) (err : ErrVal) (f : ErrVal → Value × Nat),
      findUserFacing err = none → cfg.errHandler = some f →
      (consumeHandler req b (f err).2 (f err).1).2 = none →
      handleError req cfg b err = (consumeHandler req b (f err).2 (f err).1).1) ∧
    (∀ (req : Req) (cfg : Cfg) (b : Base) (err : ErrVal),
      effAccept req = gs "application/json" → b.consumed = false →
      findUserFacing err = none → cfg.errHandler = none →
      handleError req cfg b err =
        ({ b with consumed := true, writes := b.writes ++ [WEv.head (classifyFallback err).2, WEv.body (gs "application/json")] } : Base)) := by
  refine ⟨?_, ?_, ?_, ?_⟩
  · intro req cfg b err ha hi
    exact handleError_writes_json req cfg b err ha hi
  · intro req cfg b err sb hfu h2
    unfold handleError
    rw [hfu]
    dsimp only
    rw [h2]
  · intro req cfg b err f hfu hcf h2
    unfold handleError
    rw [hfu]
    unfold handleErrorStep2
    rw [hcf]
    dsimp only
    rw [h2]
  · intro req cfg b err ha hc hfu hcf
    unfold handleError
    rw [hfu]
    unfold handleErrorStep2
    rw [hcf]
    unfold handleErrorStep3
    dsimp only
    rw [consumeHandler_vmap_json req b (classifyFallback err).2 _ ha
      (classifyFallback_ne_204 err) hc]

/-- C3 counterexample: (1) with `Accept: application/xml` and no error
handler installed, `handleError` on `RouteNotFound` returns the state
UNCHANGED — no 404, no write: the "final fallback always succeeds via the
JSON path" clause is false; (2) with a probe error handler installed that
answers 455 exactly when handed the original error, a user-facing error
whose body cannot render produces a 466 response: the handler was invoked
with the render error, not the original error. -/
theorem c3_counterexample :
    handleError reqAcceptXml cfg0 base0 ErrVal.routeNotFound = base0 ∧
    (handleError reqAcceptJson cfgProbe base0 errTeapot).writes =
      [WEv.head 466, WEv.body (gs "application/json")] :=
  ⟨rfl, rfl⟩

/-- C3 witness: the four clauses of the amended chain at concrete inputs:
a default-accept 404 write; a user-facing render taken verbatim; an error
handler render taken verbatim; and the classified JSON fallback. -/
theorem c3_error_chain_witness :
    (handleError reqDefault cfg0 base0 ErrVal.routeNotFound).writes ≠ [] ∧
    handleError reqDefault cfg0 base0 (ErrVal.userFacing 418 (Value.vstr (gs "t"))) =
      (consumeHandler reqDefault base0 418 (Value.vstr (gs "t"))).1 ∧
    handleError reqDefault cfgProbe base0 (ErrVal.plain (gs "x")) =
      (consumeHandler reqDefault base0 466 (Value.vmap [])).1 ∧
    handleError reqDefault cfg0 base0 (ErrVal.badRequest (ErrVal.plain (gs "y"))) =
      ({ base0 with consumed := true, writes := [WEv.head 400, WEv.body (gs "application/json")] } : Base) := by
  refine ⟨?_, ?_, ?_, ?_⟩
  · exact c3_error_chain.1 reqDefault cfg0 base0 ErrVal.routeNotFound rfl
      (by intro hc; simp [base0] at hc)
  · exact c3_error_chain.2.1 reqDefault cfg0 base0 _ (418, Value.vstr (gs "t")) rfl rfl
  · exact c3_error_chain.2.2.1 reqDefault cfgProbe base0 (ErrVal.plain (gs "x"))
      (fun e => (Value.vmap [], if e = errTeapot then 455 else 466)) rfl rfl rfl
  · exact c3_error_chain.2.2.2 reqDefault cfg0 base0 _ rfl rfl rfl rfl

end Discobolt

namespace Discobolt

/-! ## C4 -/

/-- C4 (amended): a panic raised below `afterExecute` — in a nested
matcher's route body, a deferred GET runner, a check run there, or a
WebSocket handler — is caught by the recover installed in `afterExecute`,
coerced to an error and routed to `handleError` (first clause: for any
request, router configuration, fuel and panic value, dispatching a context
whose nested matcher body panics equals routing the panic through
`handleError`).  But `Router.ServeHTTP` itself installs NO recover, so a
panic raised in a root-level matcher's builder — including a non-GET
method handler invoked inline there — propagates out of `ServeHTTP` with
nothing written (second clause), contradicting the original claim. -/
theorem c4_panic_boundary :
    (∀ (req : Req) (cfg : Cfg) (fuel : Nat) (p : ErrVal),
      afterExec req cfg (fuel + 1) (ctxNestedPanic p) = handleError req cfg base0 p) ∧
    (∀ p : ErrVal,
      (serveHTTP cfg0 1 (progPanic p) reqPost).2 = Flow.panicked p ∧
      (serveHTTP cfg0 1 (progPanic p) reqPost).1.base.writes = []) := by
  constructor
  · intro req cfg fuel p
    have hgp : afterExecGetPhase req cfg (ctxNestedPanic p) =
        (ctxNestedPanic p, Flow.normal, false) := by
      unfold afterExecGetPhase
      by_cases hm : req.method = gs "GET"
      · rw [if_pos hm]
        rfl
      · rw [if_neg hm]
    simp only [afterExec]
    rw [if_neg (show ¬((ctxNestedPanic p).base.consumed = true) by
      simp [ctxNestedPanic, base0]), hgp]
    rfl
  · intro p
    exact ⟨rfl, rfl⟩

/-- C4 counterexample: a root-level `Static("api")` route whose builder
registers an inline POST handler that panics.  The panic unwinds out of
`ServeHTTP` (flow `panicked`) and no response is written — the claim says
it must be caught and a response still written. -/
theorem c4_counterexample :
    (serveHTTP cfg0 1 (progPanic (ErrVal.plain (gs "boom"))) reqPost).2 =
      Flow.panicked (ErrVal.plain (gs "boom")) ∧
    (serveHTTP cfg0 1 (progPanic (ErrVal.plain (gs "boom"))) reqPost).1.base.writes = [] :=
  ⟨rfl, rfl⟩

/-! ## C8 -/

theorem consumeHandler_204 (req : Req) (b : Base) (v : Value) (hc : b.consumed = false) :
    consumeHandler req b 204 v =
      ({ b with consumed := true, writes := b.writes ++ [WEv.head 204] }, none) := by
  unfold consumeHandler consumeHandlerCore
  rw [if_neg (show ¬(b.consumed = true) by simp [hc])]
  rfl

/-- C8 (amended): a method-handler invocation whose handler returns a nil
pointer, nil map, nil slice, nil channel or nil function value with a nil
error writes status 204 with an empty body, whatever the request's accept
headers: the 204 status short-circuits negotiation before any body bytes
are produced.  A nil INTERFACE result is excluded: `reflect.ValueOf` of a
nil interface yields the zero Value of Kind `Invalid`, the switch's
`reflect.Interface` branch never fires, and the response is a normally
rendered status 200 (see the counterexample). -/
theorem c8_nil_result_204 (k : NilKind) (hk : k ≠ NilKind.interfaceK) (req : Req)
    (cfg : Cfg) (c : Ctx) (m : GoStr)
    (hcons : c.base.consumed = false) (hm : req.method = m) (hchecks : c.checks = [])
    (hpath : c.pathRem = []) :
    methodH req cfg c m (.ret (.vnil k) none) =
      ({ c with base := { c.base with consumed := true, writes := c.base.writes ++ [WEv.head 204] } }, .normal) := by
  obtain ⟨cb, cpath, chandlers, cchecks, cget, cws⟩ := c
  obtain ⟨cc, cwr, cf⟩ := cb
  simp only at hcons hchecks hpath hm
  subst hcons
  subst hchecks
  subst hpath
  subst hm
  unfold methodH
  rw [if_neg (show ¬((false : Bool) = true ∨ req.method ≠ req.method) by simp)]
  cases k with
  | ptr => rfl
  | interfaceK => exact absurd rfl hk
  | mapK => rfl
  | funcK => rfl
  | sliceK => rfl
  | chanK => rfl

/-- C8 counterexample: a handler returning a nil interface value with a
nil error.  `reflect.ValueOf` of a nil interface returns the zero Value
of Kind `Invalid`, never Kind `Interface`, so the status stays 200 and
the body is rendered: under the default accept the response is a 200 with
a JSON body (`null`) — not the bodiless 204 the claim states for nil
interfaces. -/
theorem c8_counterexample :
    methodH reqDefault cfg0 ctxFresh (gs "GET") (.ret (.vnil .interfaceK) none) =
      ({ ctxFresh with base := { base0 with consumed := true, writes := [WEv.head 200, WEv.body (gs "application/json")] } }, .normal) :=
  rfl

/-- C8 witness: a nil pointer returned on a fresh context under
`Accept: application/xml, application/json` yields exactly one 204 header
write and no body event. -/
theorem c8_nil_result_204_witness :
    methodH reqAcceptXmlJson cfg0 ctxFresh (gs "GET") (.ret (.vnil .ptr) none) =
      ({ ctxFresh with base := { base0 with consumed := true, writes := [WEv.head 204] } }, .normal) :=
  c8_nil_result_204 .ptr (by decide) reqAcceptXmlJson cfg0 ctxFresh (gs "GET") rfl rfl rfl rfl

end Discobolt
